import Mathlib

/-!
Verification development for the zyncoder library (src/zyncoder.c).

The C source is shallowly embedded: the global tables (`zynswitches`, `zyncoders`,
`zynmidi_buffer`) and the JACK transport rings are collected in one state record
`ZState`, and each C function becomes a Lean function on `ZState`.  C `unsigned int`
arithmetic is modelled on `Nat` with explicit reduction modulo `2^32` wherever the C
computation can wrap; timestamps (`unsigned long`) wrap modulo `2^64`.  Message
emission (MIDI enqueue, OSC send, dispatcher calls) is modelled by an explicit event
trace returned alongside the new state.
-/

namespace Zyncoder

/-- `2^32`, the modulus of C `unsigned int` arithmetic. -/
def U32 : Nat := 4294967296

/-- `2^64`, the modulus of C `unsigned long` arithmetic. -/
def U64 : Nat := 18446744073709551616

/-- Truncation to 32 bits, as when a C expression is stored in an `unsigned int`. -/
def u32 (n : Nat) : Nat := n % U32

/-- C `unsigned int` subtraction `a - b` (wraps modulo `2^32`). -/
def u32sub (a b : Nat) : Nat := (a % U32 + U32 - b % U32) % U32

/-- C subtraction of two `unsigned long` values truncated into an `unsigned int`,
as in `unsigned int dtus = tsus - zyncoder->tsus`. -/
def usub64to32 (a b : Nat) : Nat := ((a % U64 + U64 - b % U64) % U64) % U32

/-- Conversion of the low 32 bits of a value to a C signed `int`
(two's complement), as in `int dtus = tsus - zynswitch->tsus`. -/
def toInt32 (n : Nat) : Int :=
  if n % U32 < 2147483648 then ((n % U32 : Nat) : Int) else ((n % U32 : Nat) : Int) - (U32 : Int)

/-- Modelled from the spec: the bounded fixed-size switch table
(`MAX_NUM_ZYNSWITCHES` is defined in the header `zyncoder.h`, which is not under
`src/`; the spec only says the table is bounded and fixed-size, and no claim
depends on the exact value). -/
def MAX_NUM_ZYNSWITCHES : Nat := 8

/-- Modelled from the spec: the bounded fixed-size encoder table
(`MAX_NUM_ZYNCODERS` is defined in the header `zyncoder.h`, which is not under
`src/`; no claim depends on the exact value). -/
def MAX_NUM_ZYNCODERS : Nat := 4

/-- `ZYNCODER_TICKS_PER_RETENT`: the spec fixes `TICKS_PER_DETENT` at 4
(constant defined in the header, which is not under `src/`). -/
def ZYNCODER_TICKS_PER_RETENT : Nat := 4

/-- Modelled from the spec: capacity of the Returned-Event Ring
(`ZYNMIDI_BUFFER_SIZE` is defined in the header, which is not under `src/`;
the spec only requires a fixed capacity). -/
def ZYNMIDI_BUFFER_SIZE : Nat := 256

/-- Per-switch state, mirroring `struct zynswitch_st`. -/
structure zynswitch_st where
  enabled : Bool
  pin : Nat
  tsus : Nat
  dtus : Nat
  status : Nat
  deriving DecidableEq

/-- Per-encoder state, mirroring `struct zyncoder_st`.  The four-slot `dtus[4]`
interval history is spelled out as `dtus0` .. `dtus3`. -/
structure zyncoder_st where
  enabled : Bool
  pin_a : Nat
  pin_b : Nat
  midi_chan : Nat
  midi_ctrl : Nat
  osc_path : String
  value : Nat
  subvalue : Nat
  max_value : Nat
  step : Nat
  last_encoded : Nat
  tsus : Nat
  dtus0 : Nat
  dtus1 : Nat
  dtus2 : Nat
  dtus3 : Nat
  pin_a_last_state : Nat
  pin_b_last_state : Nat
  deriving DecidableEq

/-- Modelled from the spec: a Transport byte ring.  The JACK ringbuffer library is
external to this repository; per the spec the rings are fixed-capacity byte buffers,
modelled here as the list of currently queued bytes, oldest first. -/
structure JackRing where
  data : List Nat
  deriving DecidableEq

/-- Modelled from the spec: capacity of a transport byte ring; the source creates
them with `jack_ringbuffer_create(3*256)` (JACK rounds the size up to a power of two
and keeps one byte in reserve, hence 1023 usable bytes; no claim depends on the
exact value). -/
def JACK_RING_SIZE : Nat := 1023

/-- Modelled from the spec: free space of a transport byte ring
(`jack_ringbuffer_write_space`). -/
def jack_ringbuffer_write_space (r : JackRing) : Nat := JACK_RING_SIZE - r.data.length

/-- Modelled from the spec: `jack_ringbuffer_write` appends at most the free space
(the library permits partial writes; the callers' guards make every enqueue in this
program all-or-nothing).  Returns the number of bytes written. -/
def jack_ringbuffer_write (r : JackRing) (bs : List Nat) : JackRing × Nat :=
  let k := min bs.length (jack_ringbuffer_write_space r)
  (⟨r.data ++ bs.take k⟩, k)

/-- Events emitted outward: one `dispatch i` per invocation of `send_zyncoder`,
plus the typed OSC sends (`lo_send` with "T", "F" or "i").  MIDI emission is
visible as bytes appended to the output transport ring instead. -/
inductive ZEvent where
  | dispatch (i : Nat)
  | oscTrue (path : String)
  | oscFalse (path : String)
  | oscInt (path : String) (v : Nat)
  deriving DecidableEq

/-- The whole mutable state of the library: the global tables, the Returned-Event
Ring indices and the two transport byte rings.  `osc_inited` records whether
`init_zyncoder_osc` installed an OSC address (`osc_lo_addr != NULL`). -/
structure ZState where
  zyncoders : Nat → zyncoder_st
  zynswitches : Nat → zynswitch_st
  zynmidi_buffer : Nat → Nat
  zynmidi_buffer_read : Nat
  zynmidi_buffer_write : Nat
  jack_ring_output_buffer : JackRing
  jack_ring_input_buffer : JackRing
  osc_inited : Bool

/-- Write one slot of the encoder table. -/
def setEnc (st : ZState) (i : Nat) (zc : zyncoder_st) : ZState :=
  { st with zyncoders := fun j => if j = i then zc else st.zyncoders j }

/-- Write one slot of the switch table. -/
def setSw (st : ZState) (i : Nat) (zs : zynswitch_st) : ZState :=
  { st with zynswitches := fun j => if j = i then zs else st.zynswitches j }

/-- The all-zero switch slot (C globals are zero-initialized and `init_zyncoder`
clears `enabled`). -/
def zynswitch_zero : zynswitch_st :=
  { enabled := false, pin := 0, tsus := 0, dtus := 0, status := 0 }

/-- The all-zero encoder slot. -/
def zyncoder_zero : zyncoder_st :=
  { enabled := false, pin_a := 0, pin_b := 0, midi_chan := 0, midi_ctrl := 0
    osc_path := "", value := 0, subvalue := 0, max_value := 0, step := 0
    last_encoded := 0, tsus := 0, dtus0 := 0, dtus1 := 0, dtus2 := 0, dtus3 := 0
    pin_a_last_state := 0, pin_b_last_state := 0 }

/-- The state after `init_zyncoder`: every table slot disabled/zero, the
Returned-Event Ring empty, both transport rings empty. -/
def init_state : ZState :=
  { zyncoders := fun _ => zyncoder_zero
    zynswitches := fun _ => zynswitch_zero
    zynmidi_buffer := fun _ => 0
    zynmidi_buffer_read := 0
    zynmidi_buffer_write := 0
    jack_ring_output_buffer := ⟨[]⟩
    jack_ring_input_buffer := ⟨[]⟩
    osc_inited := false }

/-- `jack_write_midi_event`: enqueue a 3-byte MIDI message on the output transport
ring; fails (returns `-1`) when free space is below 3 bytes. -/
def jack_write_midi_event (r : JackRing) (b0 b1 b2 : Nat) : JackRing × Int :=
  if jack_ringbuffer_write_space r ≥ 3 then
    let wr := jack_ringbuffer_write r [b0, b1, b2]
    if wr.2 ≠ 3 then (wr.1, -1) else (wr.1, 0)
  else (r, -1)

/-- `zynmidi_set_control`: build the Control-Change triple and enqueue it.  The C
parameters are `unsigned char`, hence the reductions modulo 256. -/
def zynmidi_set_control (st : ZState) (chan ctrl val : Nat) : ZState × Int :=
  let wr := jack_write_midi_event st.jack_ring_output_buffer
      ((0xB0 + chan % 256) % 256) (ctrl % 256) (val % 256)
  ({ st with jack_ring_output_buffer := wr.1 }, wr.2)

/-- `send_zyncoder`: the Dispatcher.  Emits the encoder's value as a MIDI CC when
`midi_ctrl > 0`, else as an OSC message when an OSC address and path are set.
Each invocation is recorded as a `ZEvent.dispatch` in the trace. -/
def send_zyncoder (st : ZState) (i : Nat) : ZState × List ZEvent :=
  if i ≥ MAX_NUM_ZYNCODERS then (st, [ZEvent.dispatch i])
  else
    let zc := st.zyncoders i
    if zc.enabled = false then (st, [ZEvent.dispatch i])
    else if zc.midi_ctrl > 0 then
      ((zynmidi_set_control st zc.midi_chan zc.midi_ctrl zc.value).1, [ZEvent.dispatch i])
    else if st.osc_inited = true ∧ zc.osc_path ≠ "" then
      if zc.step ≥ 8 then
        if zc.value ≥ 64 then (st, [ZEvent.dispatch i, ZEvent.oscTrue zc.osc_path])
        else (st, [ZEvent.dispatch i, ZEvent.oscFalse zc.osc_path])
      else (st, [ZEvent.dispatch i, ZEvent.oscInt zc.osc_path zc.value])
    else (st, [ZEvent.dispatch i])

/-- The quadrature direction test for "up": `sum` is among `{0b1101, 0b0100,
0b0010, 0b1011}`. -/
def upSum (s : Nat) : Bool := s == 13 || s == 4 || s == 2 || s == 11

/-- The quadrature direction test for "down": `sum` among `{0b1110, 0b0111,
0b0001, 0b1000}` (only consulted when `upSum` fails, as in the source). -/
def downSum (s : Nat) : Bool := s == 14 || s == 7 || s == 1 || s == 8

/-- The per-encoder core of `update_zyncoder`: decode the quadrature transition
and mutate the encoder slot; `now` is the value `clock_gettime` returned, in
microseconds.  The boolean result says whether the source goes on to call
`send_zyncoder` (the value changed). -/
def encoder_rotate (zc : zyncoder_st) (MSB LSB now : Nat) : zyncoder_st × Bool :=
  let encoded := (MSB <<< 1) ||| LSB
  let sum := (zc.last_encoded <<< 2) ||| encoded
  let up := upSum sum
  let down := !up && downSum sum
  let zc1 := { zc with last_encoded := encoded }
  if zc.step = 0 then
    let dtus := usub64to32 now zc.tsus
    if dtus < 1000 then (zc1, false)
    else
      let dtus_avg := u32 (dtus + zc.dtus0 + zc.dtus1 + zc.dtus2 + zc.dtus3) /
          (ZYNCODER_TICKS_PER_RETENT + 1)
      let dsval := if dtus_avg < 10000 then ZYNCODER_TICKS_PER_RETENT
                   else if dtus_avg < 30000 then ZYNCODER_TICKS_PER_RETENT / 2 else 1
      let zc2 := { zc1 with dtus0 := zc.dtus1, dtus1 := zc.dtus2, dtus2 := zc.dtus3,
                            dtus3 := dtus }
      if up then
        let sv := if u32sub zc.max_value zc.subvalue ≥ dsval then u32 (zc.subvalue + dsval)
                  else zc.max_value
        let v := sv / ZYNCODER_TICKS_PER_RETENT
        let zc3 := { zc2 with subvalue := sv, tsus := now }
        if zc.value ≠ v then ({ zc3 with value := v }, true) else (zc3, false)
      else if down then
        let sv := if zc.subvalue ≥ dsval then zc.subvalue - dsval else 0
        let v := u32 (sv + (ZYNCODER_TICKS_PER_RETENT - 1)) / ZYNCODER_TICKS_PER_RETENT
        let zc3 := { zc2 with subvalue := sv, tsus := now }
        if zc.value ≠ v then ({ zc3 with value := v }, true) else (zc3, false)
      else ({ zc2 with tsus := now }, false)
  else
    let v1 := if zc.value > zc.max_value then zc.max_value else zc.value
    let v2 := if u32sub zc.max_value v1 ≥ zc.step && up then u32 (v1 + zc.step)
              else if v1 ≥ zc.step && down then v1 - zc.step else v1
    ({ zc1 with value := v2 }, zc.value ≠ v2)

/-- `update_zyncoder`: table-level entry point; `MSB`/`LSB` are the sampled pin
levels (supplied by the caller in the bank-ISR build, read with `digitalRead` in
the native build), `now` the current monotonic time in microseconds. -/
def update_zyncoder (st : ZState) (i MSB LSB now : Nat) : ZState × List ZEvent :=
  if i ≥ MAX_NUM_ZYNCODERS then (st, [])
  else
    let zc := st.zyncoders i
    if zc.enabled = false then (st, [])
    else
      let r := encoder_rotate zc MSB LSB now
      let st' := setEnc st i r.1
      if r.2 then send_zyncoder st' i else (st', [])

/-- `get_value_zyncoder`. -/
def get_value_zyncoder (st : ZState) (i : Nat) : Nat :=
  if i ≥ MAX_NUM_ZYNCODERS then 0 else (st.zyncoders i).value

/-- The slot mutation performed by `set_value_zyncoder`: in continuous mode the
value is scaled to sub-ticks (C `unsigned int` multiplication), clamped to the
stored bound and divided back down; in stepped mode it is clamped directly. -/
def set_value_slot (zc : zyncoder_st) (v : Nat) : zyncoder_st :=
  if zc.step = 0 then
    let v4 := u32 (v * ZYNCODER_TICKS_PER_RETENT)
    let sv := if v4 > zc.max_value then zc.max_value else v4
    { zc with subvalue := sv, value := sv / ZYNCODER_TICKS_PER_RETENT }
  else
    { zc with value := if v > zc.max_value then zc.max_value else v }

/-- `set_value_zyncoder`: authoritative external set, always followed by a
`send_zyncoder` call. -/
def set_value_zyncoder (st : ZState) (i v : Nat) : ZState × List ZEvent :=
  if i ≥ MAX_NUM_ZYNCODERS then (st, [])
  else
    let zc := st.zyncoders i
    if zc.enabled = false then (st, [])
    else send_zyncoder (setEnc st i (set_value_slot zc v)) i

/-- `setup_zyncoder`: configure one encoder slot.  The guard is the source's
`if (i > MAX_NUM_ZYNCODERS)` — note `>` where every sibling uses `>=`.  The
returned `Option Nat` models the returned pointer (`none` = `NULL`).  The
hardware re-arm calls (`pinMode`/`wiringPiISR`) are external and not modelled. -/
def setup_slot (zc : zyncoder_st) (pin_a pin_b midi_chan midi_ctrl : Nat)
    (osc_path : Option String) (value max_value step : Nat) : zyncoder_st :=
  let midi_chan := if midi_chan > 15 then 0 else midi_chan
  let midi_ctrl := if midi_ctrl > 127 then 1 else midi_ctrl
  let value := if value > max_value then max_value else value
  let zc1 := { zc with
    midi_chan := midi_chan, midi_ctrl := midi_ctrl
    osc_path := match osc_path with | some s => s | none => ""
    step := step
    value := value
    subvalue := if step > 0 then 0 else u32 (ZYNCODER_TICKS_PER_RETENT * value)
    max_value := if step > 0 then max_value else u32 (ZYNCODER_TICKS_PER_RETENT * max_value) }
  if zc.enabled = false ∨ zc.pin_a ≠ pin_a ∨ zc.pin_b ≠ pin_b then
    { zc1 with enabled := true, pin_a := pin_a, pin_b := pin_b,
               last_encoded := 0, tsus := 0 }
  else zc1

/-- `setup_zyncoder` (table-level): the guard is the source's
`if (i > MAX_NUM_ZYNCODERS)` — note `>` where every sibling uses `>=`. -/
def setup_zyncoder (st : ZState) (i pin_a pin_b midi_chan midi_ctrl : Nat)
    (osc_path : Option String) (value max_value step : Nat) : ZState × Option Nat :=
  if i > MAX_NUM_ZYNCODERS then (st, none)
  else
    (setEnc st i
      (setup_slot (st.zyncoders i) pin_a pin_b midi_chan midi_ctrl osc_path value max_value step),
     some i)

/-- `update_zynswitch`: ISR entry point for one switch; `status` is the sampled
logical level, `now` the monotonic time in microseconds. -/
def update_zynswitch (st : ZState) (i status now : Nat) : ZState :=
  if i ≥ MAX_NUM_ZYNSWITCHES then st
  else
    let zs := st.zynswitches i
    if zs.enabled = false then st
    else if status = zs.status then st
    else
      let zs1 := { zs with status := status }
      if status = 1 then
        let d : Int := toInt32 (usub64to32 now zs.tsus)
        if d < 1000 then setSw st i zs1
        else if zs.tsus > 0 then setSw st i { zs1 with dtus := d.toNat }
        else setSw st i zs1
      else setSw st i { zs1 with tsus := now }

/-- Body of one iteration of the `update_expanded_zynswitches` loop; the boolean
result is `false` exactly when the source executes `return` (aborting the whole
pass), `true` when it falls through or `continue`s. -/
def expanded_step (st : ZState) (levels : Nat → Nat) (now i : Nat) : ZState × Bool :=
  let zs := st.zynswitches i
  if zs.enabled = false ∨ zs.pin < 100 then (st, true)
  else
    let status := levels zs.pin
    if status = zs.status then (st, true)
    else
      let zs1 := { zs with status := status }
      if status = 1 then
        let d : Int := toInt32 (usub64to32 now zs.tsus)
        if d < 1000 then (setSw st i zs1, false)
        else if zs.tsus > 0 then (setSw st i { zs1 with dtus := d.toNat }, true)
        else (setSw st i zs1, true)
      else (setSw st i { zs1 with tsus := now }, true)

/-- Run the expander-poll loop over a list of switch indices, stopping early when
a step returns `false` (the source's `return` inside the loop). -/
def expandedGo (levels : Nat → Nat) (now : Nat) : List Nat → ZState → ZState
  | [], st => st
  | i :: rest, st =>
      let r := expanded_step st levels now i
      if r.2 then expandedGo levels now rest r.1 else r.1

/-- `update_expanded_zynswitches`: one pass of the expander poll; `levels` maps a
pin number to the level `digitalRead` returns, `now` is sampled once for the
whole pass, as in the source. -/
def update_expanded_zynswitches (st : ZState) (levels : Nat → Nat) (now : Nat) : ZState :=
  expandedGo levels now (List.range MAX_NUM_ZYNSWITCHES) st

/-- `setup_zynswitch` (bounds guard and table write; the hardware re-arm is
external and not modelled). -/
def setup_zynswitch (st : ZState) (i pin : Nat) : ZState × Option Nat :=
  if i ≥ MAX_NUM_ZYNSWITCHES then (st, none)
  else (setSw st i { enabled := true, pin := pin, tsus := 0, dtus := 0, status := 0 }, some i)

/-- `get_zynswitch_dtus`: read-and-clear the held duration. -/
def get_zynswitch_dtus (st : ZState) (i : Nat) : Nat × ZState :=
  if i ≥ MAX_NUM_ZYNSWITCHES then (0, st)
  else ((st.zynswitches i).dtus, setSw st i { st.zynswitches i with dtus := 0 })

/-- `write_zynmidi`: push one packed event onto the Returned-Event Ring; returns
0 (dropped) when the advanced write index would collide with the read index. -/
def write_zynmidi (st : ZState) (ev : Nat) : ZState × Nat :=
  let nptr0 := st.zynmidi_buffer_write + 1
  let nptr := if nptr0 ≥ ZYNMIDI_BUFFER_SIZE then 0 else nptr0
  if nptr = st.zynmidi_buffer_read then (st, 0)
  else
    ({ st with
        zynmidi_buffer := fun k => if k = st.zynmidi_buffer_write then ev
                                   else st.zynmidi_buffer k
        zynmidi_buffer_write := nptr }, 1)

/-- `read_zynmidi`: pop the oldest packed event (0 when empty). -/
def read_zynmidi (st : ZState) : Nat × ZState :=
  if st.zynmidi_buffer_read = st.zynmidi_buffer_write then (0, st)
  else
    let ev := st.zynmidi_buffer st.zynmidi_buffer_read
    let r1 := st.zynmidi_buffer_read + 1
    ( ev, { st with zynmidi_buffer_read := if r1 ≥ ZYNMIDI_BUFFER_SIZE then 0 else r1 } )

/-- The inbound Control-Change echo of `jack_process`: every enabled encoder
whose `midi_chan`/`midi_ctrl` match has `value`/`subvalue` overwritten from the
data byte.  The arguments are the three raw bytes of the message. -/
def cc_echo (st : ZState) (b0 b1 b2 : Nat) : ZState :=
  let b0 := b0 % 256
  let b1 := b1 % 256
  let b2 := b2 % 256
  { st with zyncoders := fun j =>
      let zc := st.zyncoders j
      if j < MAX_NUM_ZYNCODERS ∧ zc.enabled = true ∧ zc.midi_chan = b0 % 16 ∧
         zc.midi_ctrl = b1 then
        { zc with value := b2, subvalue := u32 (b2 * ZYNCODER_TICKS_PER_RETENT) }
      else zc }

/-- Processing of one inbound 3-byte MIDI message inside `jack_process`'s input
scan: Control-Change messages drive the encoder echo, Program-Change messages are
packed into the Returned-Event Ring, and either kind is copied onto the input
transport ring when it fits. -/
def jack_process_input_event (st : ZState) (b0 b1 b2 : Nat) : ZState :=
  let b0 := b0 % 256
  let b1 := b1 % 256
  let b2 := b2 % 256
  let event_type := b0 >>> 4
  if event_type = 0xB ∨ event_type = 0xC then
    let st1 := if event_type = 0xB then cc_echo st b0 b1 b2 else st
    let st2 := if event_type = 0xC then
        (write_zynmidi st1 (b0 ||| (b1 <<< 8) ||| (b2 <<< 16))).1
      else st1
    if jack_ringbuffer_write_space st2.jack_ring_input_buffer ≥ 3 then
      { st2 with jack_ring_input_buffer :=
          (jack_ringbuffer_write st2.jack_ring_input_buffer [b0, b1, b2]).1 }
    else st2
  else st

/-- The encoder-table mutations named by the spec's invariant: a quadrature edge,
an external set, a (re)configuration and the inbound Control-Change echo. -/
inductive EncMutation where
  | rot (i MSB LSB now : Nat)
  | setv (i v : Nat)
  | cfg (i pin_a pin_b midi_chan midi_ctrl : Nat) (osc_path : Option String)
        (value max_value step : Nat)
  | ccecho (b0 b1 b2 : Nat)

/-- Apply one encoder-table mutation to the state. -/
def applyEncMutation (st : ZState) : EncMutation → ZState
  | .rot i m l t => (update_zyncoder st i m l t).1
  | .setv i v => (set_value_zyncoder st i v).1
  | .cfg i pa pb mc mct op v mv s => (setup_zyncoder st i pa pb mc mct op v mv s).1
  | .ccecho b0 b1 b2 => cc_echo st b0 b1 b2

/-- Recognizer for dispatcher-invocation events in a trace. -/
def isDispatch : ZEvent → Bool
  | .dispatch _ => true
  | _ => false

/-- A switch the expander-poll loop passes over without touching state:
disabled, not an expander pin, or no level change. -/
def sw_inactive (st : ZState) (levels : Nat → Nat) (j : Nat) : Prop :=
  (st.zynswitches j).enabled = false ∨ (st.zynswitches j).pin < 100 ∨
    levels ((st.zynswitches j).pin) = (st.zynswitches j).status

/-- Iterate `update_zyncoder` on encoder `i` over a list of
`(MSB, LSB, timestamp)` samples. -/
def run_updates (i : Nat) : List (Nat × Nat × Nat) → ZState → ZState
  | [], st => st
  | (m, l, t) :: rest, st => run_updates i rest (update_zyncoder st i m l t).1

/-- A sample list that decodes as consecutive "up" quadrature transitions, each
more than 30ms after the previous tick (timestamps bounded for exact
arithmetic). -/
def UpTrace (i : Nat) : ZState → List (Nat × Nat × Nat) → Prop
  | _, [] => True
  | st, (m, l, t) :: rest =>
      upSum (((st.zyncoders i).last_encoded <<< 2) ||| ((m <<< 1) ||| l)) = true ∧
      (st.zyncoders i).tsus + 30000 < t ∧ t < 2 ^ 29 ∧
      UpTrace i (update_zyncoder st i m l t).1 rest

/-- An interval history of four slow ticks (each strictly between 30ms and the
bound keeping the averaging arithmetic exact), with a representable timestamp. -/
def SlowHistory (zc : zyncoder_st) : Prop :=
  30000 < zc.dtus0 ∧ zc.dtus0 < 2 ^ 29 ∧ 30000 < zc.dtus1 ∧ zc.dtus1 < 2 ^ 29 ∧
  30000 < zc.dtus2 ∧ zc.dtus2 < 2 ^ 29 ∧ 30000 < zc.dtus3 ∧ zc.dtus3 < 2 ^ 29 ∧
  zc.tsus < 2 ^ 29

/-- Encoder 0 configured with `midi_chan=0, midi_ctrl=10, value=10, max_value=10,
step=0` (continuous mode: `max_subvalue = 40`, `subvalue = 40`). -/
def stC1 : ZState := (setup_zyncoder init_state 0 1 2 0 10 none 10 10 0).1

/-- A switch on pin 5 taken through setup, a press at t=5000µs and a release at
t=10000µs: enabled, `status = 0`, `tsus = 10000`. -/
def stC2 : ZState :=
  update_zynswitch (update_zynswitch (setup_zynswitch init_state 0 5).1 0 1 5000) 0 0 10000

/-- An expander switch (pin 100) in the released state with `tsus = 10000`. -/
def stC2e : ZState :=
  setSw init_state 0 { enabled := true, pin := 100, tsus := 10000, dtus := 0, status := 0 }

/-- Encoder 0 configured continuous (`step=0`) with `max_value=127`
(`max_subvalue = 508`). -/
def stC3 : ZState := (setup_zyncoder init_state 0 1 2 1 10 none 0 127 0).1

/-- Encoder 0 configured stepped (`step=1`) with `midi_chan=1, midi_ctrl=10,
max_value=200`. -/
def stC4 : ZState := (setup_zyncoder init_state 0 1 2 1 10 none 0 200 1).1

/-- Encoder 1 configured with no MIDI controller (`midi_ctrl=0`), an OSC path and
`step=9, value=70`, with the OSC address installed. -/
def stC4o : ZState :=
  { (setup_zyncoder init_state 1 3 4 0 0 (some "/zyn") 70 127 9).1 with osc_inited := true }

/-- A continuous encoder at `subvalue = 0` whose four-slot interval history
already holds four slow (30001µs) ticks. -/
def stC5w : ZState :=
  setEnc init_state 0
    { zyncoder_zero with
        enabled := true, step := 0, subvalue := 0, value := 0
        max_value := 508, dtus0 := 30001, dtus1 := 30001, dtus2 := 30001
        dtus3 := 30001, tsus := 0 }

/-- Two expander switches (pins 100 and 101) after setup. -/
def stQ0 : ZState := (setup_zynswitch (setup_zynswitch init_state 0 100).1 1 101).1

/-- One expander pass: switch 0 pressed at t=2000µs. -/
def stQ1 : ZState := update_expanded_zynswitches stQ0 (fun p => if p = 100 then 1 else 0) 2000

/-- Next pass: switch 0 released at t=3000µs (its `tsus` becomes 3000). -/
def stQ2 : ZState := update_expanded_zynswitches stQ1 (fun _ => 0) 3000

/-- Final pass at t=3500µs with both pins reading high: switch 0's press edge is
within the 1000µs debounce floor. -/
def stQ3 : ZState := update_expanded_zynswitches stQ2 (fun _ => 1) 3500

/-- The spec's encoder invariant: `subvalue ≤ max_subvalue` (in continuous mode
the `max_value` field holds the sub-tick bound). -/
def EncInv (zc : zyncoder_st) : Prop := zc.subvalue ≤ zc.max_value

/-- Side conditions under which the mutations preserve the invariant: rotation
and external set need none; configuration must not overflow
`TICKS_PER_DETENT * max_value` in 32 bits; the inbound Control-Change echo must
carry a data byte whose scaled value fits below every matching encoder's bound. -/
def mutOK (st : ZState) : EncMutation → Prop
  | .rot _ _ _ _ => True
  | .setv _ _ => True
  | .cfg _ _ _ _ _ _ _ max_value step =>
      step = 0 → ZYNCODER_TICKS_PER_RETENT * max_value < U32
  | .ccecho b0 b1 b2 => ∀ j, j < MAX_NUM_ZYNCODERS →
      (st.zyncoders j).enabled = true →
      (st.zyncoders j).midi_chan = (b0 % 256) % 16 →
      (st.zyncoders j).midi_ctrl = b1 % 256 →
      (b2 % 256) * ZYNCODER_TICKS_PER_RETENT ≤ (st.zyncoders j).max_value

/-! ### Arithmetic helper lemmas -/

lemma u32_eq_of_lt {n : Nat} (h : n < U32) : u32 n = n := Nat.mod_eq_of_lt h

lemma u32_lt (n : Nat) : u32 n < U32 := Nat.mod_lt _ (by decide)

lemma u32sub_eq_of_le {a b : Nat} (hb : b ≤ a) (ha : a < U32) : u32sub a b = a - b := by
  unfold u32sub
  rw [Nat.mod_eq_of_lt ha, Nat.mod_eq_of_lt (lt_of_le_of_lt hb ha)]
  have h1 : a + U32 - b = (a - b) + U32 := by omega
  rw [h1, Nat.add_mod_right]
  exact Nat.mod_eq_of_lt (by omega)

lemma usub64to32_eq {a b : Nat} (hb : b ≤ a) (hd : a - b < U32) (ha : a < U64) :
    usub64to32 a b = a - b := by
  unfold usub64to32
  have hb64 : b < U64 := lt_of_le_of_lt hb ha
  rw [Nat.mod_eq_of_lt ha, Nat.mod_eq_of_lt hb64]
  have h1 : a + U64 - b = (a - b) + U64 := by omega
  have h2 : a - b < U64 := lt_trans hd (by decide)
  rw [h1, Nat.add_mod_right, Nat.mod_eq_of_lt h2]
  exact Nat.mod_eq_of_lt hd

lemma toInt32_eq_of_lt {n : Nat} (h : n < 2147483648) : toInt32 n = (n : Int) := by
  unfold toInt32
  rw [Nat.mod_eq_of_lt (lt_trans h (by decide))]
  simp [h]

/-! ### C1: the `subvalue ≤ max_subvalue` invariant -/

lemma u32_le (n : Nat) : u32 n ≤ n := Nat.mod_le _ _

set_option maxHeartbeats 2000000 in
lemma encoder_rotate_inv (zc : zyncoder_st) (m l t : Nat) (h : EncInv zc) :
    EncInv (encoder_rotate zc m l t).1 := by
  unfold EncInv at h ⊢
  unfold encoder_rotate ZYNCODER_TICKS_PER_RETENT
  by_cases hM : zc.max_value < U32 <;>
    · simp only
      split_ifs <;>
        (try dsimp only) <;>
        (try simp only [Nat.reduceDiv, Nat.reduceSub]) <;>
        (try simp only [u32sub_eq_of_le h hM] at *) <;>
        (have hx1 := u32_le (zc.subvalue + 4)
         have hx2 := u32_le (zc.subvalue + 2)
         have hx3 := u32_le (zc.subvalue + 1)
         have hy1 := u32_lt (zc.subvalue + 4)
         have hy2 := u32_lt (zc.subvalue + 2)
         have hy3 := u32_lt (zc.subvalue + 1)
         omega)

lemma send_zyncoder_zyncoders (st : ZState) (i : Nat) :
    (send_zyncoder st i).1.zyncoders = st.zyncoders := by
  unfold send_zyncoder zynmidi_set_control
  dsimp only
  split_ifs <;> rfl

lemma update_zyncoder_inv (st : ZState) (i m l t j : Nat) (h : EncInv (st.zyncoders j)) :
    EncInv ((update_zyncoder st i m l t).1.zyncoders j) := by
  unfold update_zyncoder
  dsimp only
  have hset : EncInv ((setEnc st i (encoder_rotate (st.zyncoders i) m l t).1).zyncoders j) := by
    unfold setEnc
    dsimp only
    by_cases hj : j = i
    · subst hj
      simp only [if_pos rfl]
      exact encoder_rotate_inv _ m l t h
    · simp only [if_neg hj]
      exact h
  split_ifs with h1 h2 h3
  · exact h
  · exact h
  · rw [send_zyncoder_zyncoders]
    exact hset
  · exact hset

lemma set_value_slot_inv (zc : zyncoder_st) (v : Nat) (h : EncInv zc) :
    EncInv (set_value_slot zc v) := by
  unfold EncInv at h ⊢
  unfold set_value_slot
  dsimp only
  split_ifs <;> dsimp only <;> omega

lemma set_value_zyncoder_inv (st : ZState) (i v j : Nat) (h : EncInv (st.zyncoders j)) :
    EncInv ((set_value_zyncoder st i v).1.zyncoders j) := by
  unfold set_value_zyncoder
  dsimp only
  split_ifs with h1 h2
  · exact h
  · exact h
  · rw [send_zyncoder_zyncoders]
    unfold setEnc
    dsimp only
    by_cases hj : j = i
    · subst hj
      simp only [if_pos rfl]
      exact set_value_slot_inv _ v h
    · simp only [if_neg hj]
      exact h

lemma setup_slot_inv (zc : zyncoder_st) (pa pb mc mct : Nat) (op : Option String)
    (v mv s : Nat) (h4 : s = 0 → ZYNCODER_TICKS_PER_RETENT * mv < U32) :
    EncInv (setup_slot zc pa pb mc mct op v mv s) := by
  unfold EncInv setup_slot
  try dsimp only
  by_cases hs : s > 0
  · simp only [if_pos hs]
    split_ifs <;> dsimp only <;> omega
  · have hs0 : s = 0 := by omega
    have hb := h4 hs0
    simp only [if_neg hs]
    split_ifs <;> dsimp only <;>
      first
        | exact le_refl _
        | (rw [u32_eq_of_lt (lt_of_le_of_lt
              (Nat.mul_le_mul_left ZYNCODER_TICKS_PER_RETENT (by omega : v ≤ mv)) hb),
              u32_eq_of_lt hb]
           exact Nat.mul_le_mul_left _ (by omega))

lemma setup_zyncoder_inv (st : ZState) (i pa pb mc mct : Nat) (op : Option String)
    (v mv s j : Nat) (h4 : s = 0 → ZYNCODER_TICKS_PER_RETENT * mv < U32)
    (h : EncInv (st.zyncoders j)) :
    EncInv ((setup_zyncoder st i pa pb mc mct op v mv s).1.zyncoders j) := by
  unfold setup_zyncoder
  try dsimp only
  split_ifs with h1
  · exact h
  · unfold setEnc
    dsimp only
    by_cases hj : j = i
    · subst hj
      simp only [if_pos rfl]
      exact setup_slot_inv _ pa pb mc mct op v mv s h4
    · simp only [if_neg hj]
      exact h

lemma cc_echo_inv (st : ZState) (b0 b1 b2 j : Nat)
    (hok : mutOK st (.ccecho b0 b1 b2)) (h : EncInv (st.zyncoders j)) :
    EncInv ((cc_echo st b0 b1 b2).zyncoders j) := by
  unfold cc_echo
  dsimp only
  split_ifs with hc
  · obtain ⟨hj, hen, hchan, hctrl⟩ := hc
    have hb := hok j hj hen hchan hctrl
    unfold EncInv
    dsimp only
    exact le_trans (u32_le _) hb
  · exact h

/-- C1 (amended): the invariant `subvalue ≤ max_subvalue` is preserved by
`update_zyncoder` and `set_value_zyncoder` unconditionally, by `setup_zyncoder`
provided `TICKS_PER_DETENT * max_value` does not overflow 32 bits, and by the
Transport Bridge's inbound Control-Change echo only when the scaled data byte
`data2 * TICKS_PER_DETENT` fits below every matching encoder's bound (the echo
performs no clamping). -/
theorem c1_subvalue_invariant_preserved (st : ZState) (em : EncMutation) (j : Nat)
    (h : EncInv (st.zyncoders j)) (hok : mutOK st em) :
    EncInv ((applyEncMutation st em).zyncoders j) := by
  cases em with
  | rot i m l t => exact update_zyncoder_inv st i m l t j h
  | setv i v => exact set_value_zyncoder_inv st i v j h
  | cfg i pa pb mc mct op v mv s => exact setup_zyncoder_inv st i pa pb mc mct op v mv s j hok h
  | ccecho b0 b1 b2 => exact cc_echo_inv st b0 b1 b2 j hok h

/-- C1 counterexample: the inbound Control-Change echo with data byte 100 on a
matching enabled encoder whose `max_subvalue` is 40 sets `subvalue = 400`,
violating the invariant the claim says every mutating operation preserves. -/
theorem c1_counterexample :
    EncInv (stC1.zyncoders 0) ∧
    ¬ EncInv ((applyEncMutation stC1 (EncMutation.ccecho 0xB0 10 100)).zyncoders 0) := by
  unfold EncInv
  constructor
  · decide
  · decide

/-- C1 witness: the amended preservation theorem applied to the concrete state
`stC1` and a Control-Change echo whose data byte respects the bound. -/
theorem c1_witness :
    EncInv ((applyEncMutation stC1 (EncMutation.ccecho 0xB0 10 5)).zyncoders 0) :=
  c1_subvalue_invariant_preserved stC1 (EncMutation.ccecho 0xB0 10 5) 0
    (by unfold EncInv; decide)
    (by intro j hj hen hchan hctrl
        have hj4 : j < 4 := hj
        interval_cases j <;> revert hen hchan hctrl <;> decide)

/-- C10: for a disabled encoder slot, `set_value_zyncoder` is a complete no-op —
the state (every table, every ring) is returned unchanged and the event trace is
empty, so no `send_zyncoder` invocation and no MIDI or OSC emission occurs. -/
theorem c10_disabled_set_value_noop (st : ZState) (i v : Nat)
    (h : (st.zyncoders i).enabled = false) :
    set_value_zyncoder st i v = (st, []) := by
  unfold set_value_zyncoder
  try dsimp only
  split_ifs with h1
  · rfl
  · rfl

/-- C10 witness: `set_value_zyncoder` on the freshly initialized (all-disabled)
table leaves the state untouched and emits nothing. -/
theorem c10_witness : set_value_zyncoder init_state 0 5 = (init_state, []) :=
  c10_disabled_set_value_noop init_state 0 5 (by decide)

/-- C6: every public operation given an index at or beyond its table bound is a
silent no-op returning a sentinel — except `setup_zyncoder`, whose guard is
`i > MAX_NUM_ZYNCODERS` where every sibling uses `>=`: called with
`i = MAX_NUM_ZYNCODERS` it passes the check, returns a non-NULL pointer and
writes one slot past the valid table (here: the slot becomes enabled). -/
theorem c6_out_of_range_guard_off_by_one :
    update_zynswitch init_state MAX_NUM_ZYNSWITCHES 1 5000 = init_state ∧
    update_zyncoder init_state MAX_NUM_ZYNCODERS 1 0 5000 = (init_state, []) ∧
    get_zynswitch_dtus init_state MAX_NUM_ZYNSWITCHES = (0, init_state) ∧
    get_value_zyncoder init_state MAX_NUM_ZYNCODERS = 0 ∧
    set_value_zyncoder init_state MAX_NUM_ZYNCODERS 5 = (init_state, []) ∧
    setup_zynswitch init_state MAX_NUM_ZYNSWITCHES 7 = (init_state, none) ∧
    (setup_zyncoder init_state MAX_NUM_ZYNCODERS 1 2 0 10 none 0 10 0).2 =
      some MAX_NUM_ZYNCODERS ∧
    ((setup_zyncoder init_state MAX_NUM_ZYNCODERS 1 2 0 10 none 0 10 0).1.zyncoders
        MAX_NUM_ZYNCODERS).enabled = true ∧
    (init_state.zyncoders MAX_NUM_ZYNCODERS).enabled = false :=
  ⟨rfl, rfl, rfl, rfl, rfl, rfl, rfl, by decide, by decide⟩

lemma usub_small {a b : Nat} (hb : b ≤ a) (hd : a - b < 2147483648) (ha : a < U64) :
    toInt32 (usub64to32 a b) = ((a - b : Nat) : Int) := by
  rw [usub64to32_eq hb (lt_trans hd (by decide)) ha]
  exact toInt32_eq_of_lt hd

lemma update_zynswitch_spurious_press (st : ZState) (i now : Nat)
    (hi : i < MAX_NUM_ZYNSWITCHES)
    (hen : (st.zynswitches i).enabled = true)
    (hst : (st.zynswitches i).status = 0)
    (hts : (st.zynswitches i).tsus ≤ now) (hnow : now < U64)
    (hd : now - (st.zynswitches i).tsus < 1000) :
    update_zynswitch st i 1 now = setSw st i { st.zynswitches i with status := 1 } := by
  unfold update_zynswitch
  try dsimp only
  rw [if_neg (by omega : ¬ i ≥ MAX_NUM_ZYNSWITCHES)]
  rw [if_neg (by simp [hen] : ¬ (st.zynswitches i).enabled = false)]
  rw [if_neg (by omega : ¬ (1 : Nat) = (st.zynswitches i).status)]
  rw [if_pos rfl]
  rw [usub_small hts (by omega) hnow]
  rw [if_pos (by exact_mod_cast hd)]

lemma expanded_step_inactive (st : ZState) (levels : Nat → Nat) (now j : Nat)
    (h : sw_inactive st levels j) :
    expanded_step st levels now j = (st, true) := by
  unfold expanded_step
  try dsimp only
  by_cases h0 : (st.zynswitches j).enabled = false ∨ (st.zynswitches j).pin < 100
  · rw [if_pos h0]
  · rw [if_neg h0]
    unfold sw_inactive at h
    rcases h with h | h | h
    · exact absurd (Or.inl h) h0
    · exact absurd (Or.inr h) h0
    · rw [if_pos h]

lemma expandedGo_skip (levels : Nat → Nat) (now : Nat) (l1 l2 : List Nat) (st : ZState)
    (h : ∀ j ∈ l1, sw_inactive st levels j) :
    expandedGo levels now (l1 ++ l2) st = expandedGo levels now l2 st := by
  induction l1 with
  | nil => rfl
  | cons a l ih =>
      rw [List.cons_append]
      simp only [expandedGo]
      rw [expanded_step_inactive st levels now a (h a (List.mem_cons_self a l))]
      try dsimp only
      rw [if_pos rfl]
      exact ih (fun j hj => h j (List.mem_cons_of_mem a hj))

lemma expanded_step_spurious_press (st : ZState) (levels : Nat → Nat) (now i : Nat)
    (hen : (st.zynswitches i).enabled = true)
    (hpin : 100 ≤ (st.zynswitches i).pin)
    (hlev : levels ((st.zynswitches i).pin) = 1)
    (hst : (st.zynswitches i).status = 0)
    (hts : (st.zynswitches i).tsus ≤ now) (hnow : now < U64)
    (hd : now - (st.zynswitches i).tsus < 1000) :
    expanded_step st levels now i = (setSw st i { st.zynswitches i with status := 1 }, false) := by
  unfold expanded_step
  try dsimp only
  rw [if_neg (by simp [hen]; omega :
      ¬ ((st.zynswitches i).enabled = false ∨ (st.zynswitches i).pin < 100))]
  rw [hlev]
  rw [if_neg (by omega : ¬ (1 : Nat) = (st.zynswitches i).status)]
  rw [if_pos rfl]
  rw [usub_small hts (by omega) hnow]
  rw [if_pos (by exact_mod_cast hd)]

lemma expanded_spurious_press (st : ZState) (levels : Nat → Nat) (now i : Nat)
    (hi : i < MAX_NUM_ZYNSWITCHES)
    (hskip : ∀ j, j < i → sw_inactive st levels j)
    (hen : (st.zynswitches i).enabled = true)
    (hpin : 100 ≤ (st.zynswitches i).pin)
    (hlev : levels ((st.zynswitches i).pin) = 1)
    (hst : (st.zynswitches i).status = 0)
    (hts : (st.zynswitches i).tsus ≤ now) (hnow : now < U64)
    (hd : now - (st.zynswitches i).tsus < 1000) :
    update_expanded_zynswitches st levels now =
      setSw st i { st.zynswitches i with status := 1 } := by
  unfold update_expanded_zynswitches
  have h1 : MAX_NUM_ZYNSWITCHES = i + (MAX_NUM_ZYNSWITCHES - i) := by omega
  have h2 : MAX_NUM_ZYNSWITCHES - i = (MAX_NUM_ZYNSWITCHES - i - 1) + 1 := by omega
  have hsplit : List.range MAX_NUM_ZYNSWITCHES =
      List.range' 0 i ++ i :: List.range' (i + 1) (MAX_NUM_ZYNSWITCHES - i - 1) := by
    calc List.range MAX_NUM_ZYNSWITCHES
        = List.range' 0 MAX_NUM_ZYNSWITCHES := List.range_eq_range' _
      _ = List.range' 0 ((MAX_NUM_ZYNSWITCHES - i) + i) := by rw [Nat.add_comm, ← h1]
      _ = List.range' 0 i ++ List.range' (0 + i) (MAX_NUM_ZYNSWITCHES - i) :=
          (List.range'_append_1 0 i _).symm
      _ = List.range' 0 i ++ i :: List.range' (i + 1) (MAX_NUM_ZYNSWITCHES - i - 1) := by
          rw [h2, Nat.zero_add, List.range'_succ, Nat.add_sub_cancel]
  rw [hsplit]
  rw [expandedGo_skip levels now _ _ st
      (fun j hj => hskip j (by
        have := List.mem_range'_1.mp hj
        omega))]
  simp only [expandedGo]
  rw [expanded_step_spurious_press st levels now i hen hpin hlev hst hts hnow hd]
  try dsimp only
  rw [if_neg Bool.false_ne_true]

/-- C2 (amended): in both the interrupt path `update_zynswitch` and the polled
path `update_expanded_zynswitches`, a press-edge notification (raw level 1,
current status 0) with `delta < 1000µs` since the stored timestamp does NOT
discard the whole transition: the `status` field is committed to 1 before the
debounce check; only the held-duration field `dtus` (and the timestamp `tsus`)
are left unwritten. -/
theorem c2_debounce_commits_status :
    (∀ st : ZState, ∀ i now : Nat,
      i < MAX_NUM_ZYNSWITCHES → (st.zynswitches i).enabled = true →
      (st.zynswitches i).status = 0 → (st.zynswitches i).tsus ≤ now → now < U64 →
      now - (st.zynswitches i).tsus < 1000 →
      ((update_zynswitch st i 1 now).zynswitches i).status = 1 ∧
      ((update_zynswitch st i 1 now).zynswitches i).dtus = (st.zynswitches i).dtus ∧
      ((update_zynswitch st i 1 now).zynswitches i).tsus = (st.zynswitches i).tsus) ∧
    (∀ st : ZState, ∀ levels : Nat → Nat, ∀ now i : Nat,
      i < MAX_NUM_ZYNSWITCHES → (∀ j, j < i → sw_inactive st levels j) →
      (st.zynswitches i).enabled = true → 100 ≤ (st.zynswitches i).pin →
      levels ((st.zynswitches i).pin) = 1 → (st.zynswitches i).status = 0 →
      (st.zynswitches i).tsus ≤ now → now < U64 →
      now - (st.zynswitches i).tsus < 1000 →
      ((update_expanded_zynswitches st levels now).zynswitches i).status = 1 ∧
      ((update_expanded_zynswitches st levels now).zynswitches i).dtus =
        (st.zynswitches i).dtus ∧
      ((update_expanded_zynswitches st levels now).zynswitches i).tsus =
        (st.zynswitches i).tsus) := by
  constructor
  · intro st i now hi hen hst hts hnow hd
    rw [update_zynswitch_spurious_press st i now hi hen hst hts hnow hd]
    unfold setSw
    dsimp only
    rw [if_pos rfl]
    exact ⟨rfl, rfl, rfl⟩
  · intro st levels now i hi hskip hen hpin hlev hst hts hnow hd
    rw [expanded_spurious_press st levels now i hi hskip hen hpin hlev hst hts hnow hd]
    unfold setSw
    dsimp only
    rw [if_pos rfl]
    exact ⟨rfl, rfl, rfl⟩

/-- C2 counterexample: a switch released at t=10000µs receives a press edge at
t=10500µs (delta 500µs < 1000µs); the claim says `status` is left unchanged, but
`update_zynswitch` has already committed `status = 1`. -/
theorem c2_counterexample :
    (stC2.zynswitches 0).status = 0 ∧
    10500 - (stC2.zynswitches 0).tsus < 1000 ∧
    ((update_zynswitch stC2 0 1 10500).zynswitches 0).status = 1 :=
  ⟨by decide, by decide, by decide⟩

/-- C2 witness: the amended theorem applied to concrete spurious press edges on
the interrupt path (`stC2`) and on the polled expander path (`stC2e`). -/
theorem c2_witness :
    (((update_zynswitch stC2 0 1 10500).zynswitches 0).status = 1 ∧
      ((update_zynswitch stC2 0 1 10500).zynswitches 0).dtus = (stC2.zynswitches 0).dtus) ∧
    (((update_expanded_zynswitches stC2e (fun _ => 1) 10500).zynswitches 0).status = 1 ∧
      ((update_expanded_zynswitches stC2e (fun _ => 1) 10500).zynswitches 0).dtus =
        (stC2e.zynswitches 0).dtus) := by
  have h1 := c2_debounce_commits_status.1 stC2 0 10500 (by decide) (by decide) (by decide)
    (by decide) (by decide) (by decide)
  have h2 := c2_debounce_commits_status.2 stC2e (fun _ => 1) 10500 0 (by decide)
    (fun j hj => absurd hj (Nat.not_lt_zero j)) (by decide) (by decide) (by decide)
    (by decide) (by decide) (by decide) (by decide)
  exact ⟨⟨h1.1, h1.2.1⟩, ⟨h2.1, h2.2.1⟩⟩

lemma setEnc_get (st : ZState) (i : Nat) (zc : zyncoder_st) :
    (setEnc st i zc).zyncoders i = zc := by
  unfold setEnc
  dsimp only
  rw [if_pos rfl]

lemma set_value_zyncoder_eq (st : ZState) (i v : Nat)
    (hi : i < MAX_NUM_ZYNCODERS) (hen : (st.zyncoders i).enabled = true) :
    set_value_zyncoder st i v =
      send_zyncoder (setEnc st i (set_value_slot (st.zyncoders i) v)) i := by
  unfold set_value_zyncoder
  try dsimp only
  rw [if_neg (by omega : ¬ i ≥ MAX_NUM_ZYNCODERS), if_neg (by simp [hen])]

lemma send_zyncoder_filter_dispatch (st : ZState) (i : Nat) :
    List.filter isDispatch (send_zyncoder st i).2 = [ZEvent.dispatch i] := by
  unfold send_zyncoder
  try dsimp only
  split_ifs <;> simp [isDispatch]

/-- C3 (amended): for an enabled encoder at a valid index, `set_value_zyncoder`
followed by `get_value_zyncoder` returns `v` clamped to `[0, max_value]` — in
stepped mode for every `v`, and in continuous mode (via `v*TICKS_PER_DETENT`
clamped to `max_subvalue` and divided back down) provided the sub-tick
multiplication `v*TICKS_PER_DETENT` does not overflow 32 bits; and
`set_value_zyncoder` always performs exactly one Dispatcher invocation
(`send_zyncoder`), even when `v` equals the prior value. -/
theorem c3_set_then_get (st : ZState) (i v : Nat)
    (hi : i < MAX_NUM_ZYNCODERS) (hen : (st.zyncoders i).enabled = true) :
    ((st.zyncoders i).step ≠ 0 →
      get_value_zyncoder (set_value_zyncoder st i v).1 i = min v (st.zyncoders i).max_value) ∧
    (∀ M0 : Nat, (st.zyncoders i).step = 0 →
      (st.zyncoders i).max_value = ZYNCODER_TICKS_PER_RETENT * M0 →
      v * ZYNCODER_TICKS_PER_RETENT < U32 →
      get_value_zyncoder (set_value_zyncoder st i v).1 i = min v M0) ∧
    List.filter isDispatch (set_value_zyncoder st i v).2 = [ZEvent.dispatch i] := by
  have hget : get_value_zyncoder (set_value_zyncoder st i v).1 i =
      (set_value_slot (st.zyncoders i) v).value := by
    rw [set_value_zyncoder_eq st i v hi hen]
    unfold get_value_zyncoder
    rw [if_neg (by omega : ¬ i ≥ MAX_NUM_ZYNCODERS)]
    rw [send_zyncoder_zyncoders, setEnc_get]
  refine ⟨?_, ?_, ?_⟩
  · intro hs
    rw [hget]
    unfold set_value_slot
    rw [if_neg hs]
    dsimp only
    split_ifs <;> omega
  · intro M0 hs hM hvU
    rw [hget]
    unfold set_value_slot
    rw [if_pos hs]
    dsimp only
    rw [u32_eq_of_lt hvU, hM]
    unfold ZYNCODER_TICKS_PER_RETENT
    split_ifs <;> omega
  · rw [set_value_zyncoder_eq st i v hi hen]
    exact send_zyncoder_filter_dispatch _ i

/-- C3 counterexample: on the continuous encoder `stC3` (`max_value = 127`,
`max_subvalue = 508`), `set_value_zyncoder` with `v = 2^30` wraps
`v * TICKS_PER_DETENT` to 0 in 32-bit arithmetic, so the subsequent get returns
0, not `v` clamped to `[0, 127]` as the claim states. -/
theorem c3_counterexample :
    (stC3.zyncoders 0).enabled = true ∧ (stC3.zyncoders 0).step = 0 ∧
    (stC3.zyncoders 0).max_value = ZYNCODER_TICKS_PER_RETENT * 127 ∧
    get_value_zyncoder (set_value_zyncoder stC3 0 1073741824).1 0 = 0 ∧
    get_value_zyncoder (set_value_zyncoder stC3 0 1073741824).1 0 ≠ min 1073741824 127 :=
  ⟨by decide, by decide, by decide, by decide, by decide⟩

/-- C3 witness: the amended theorem applied to the continuous encoder `stC3`
with `v = 5` and to the stepped encoder `stC4` with `v = 500` (clamped to 200),
plus the single-dispatch trace. -/
theorem c3_witness :
    get_value_zyncoder (set_value_zyncoder stC3 0 5).1 0 = min 5 127 ∧
    get_value_zyncoder (set_value_zyncoder stC4 0 500).1 0 = min 500 200 ∧
    List.filter isDispatch (set_value_zyncoder stC3 0 5).2 = [ZEvent.dispatch 0] := by
  have h3 := c3_set_then_get stC3 0 5 (by decide) (by decide)
  have h4 := c3_set_then_get stC4 0 500 (by decide) (by decide)
  exact ⟨h3.2.1 127 (by decide) (by decide) (by decide), h4.1 (by decide), h3.2.2⟩

lemma jack_write_midi_event_full (r : JackRing) (b0 b1 b2 : Nat)
    (h : jack_ringbuffer_write_space r < 3) :
    jack_write_midi_event r b0 b1 b2 = (r, -1) := by
  unfold jack_write_midi_event
  rw [if_neg (by omega)]

lemma jack_write_midi_event_ok (r : JackRing) (b0 b1 b2 : Nat)
    (h : jack_ringbuffer_write_space r ≥ 3) :
    jack_write_midi_event r b0 b1 b2 = (⟨r.data ++ [b0, b1, b2]⟩, 0) := by
  unfold jack_write_midi_event jack_ringbuffer_write
  try dsimp only
  rw [if_pos h]
  have hk : min (List.length [b0, b1, b2]) (jack_ringbuffer_write_space r) = 3 := by
    simp only [List.length_cons, List.length_nil]
    omega
  rw [hk]
  rw [if_neg (by simp : ¬ (3 : Nat) ≠ 3)]
  have ht : List.take 3 [b0, b1, b2] = [b0, b1, b2] := List.take_of_length_le (by simp)
  rw [ht]

/-- C4 (amended): for an enabled encoder at a valid index, the Dispatcher with
`midi_ctrl > 0` enqueues exactly one Control-Change message
`(0xB0+midi_chan, midi_ctrl, value & 0xFF)` on the output transport ring — the
data byte is `value` truncated to an `unsigned char` (`& 0xFF`), not
`value & 0x7F` — and emits no OSC message even when an OSC path is configured;
only when `midi_ctrl = 0` and an OSC address and path are set does it emit one
OSC message, boolean-typed (true iff `value ≥ 64`) when `step ≥ 8` and
integer-typed carrying `value` otherwise. -/
theorem c4_dispatcher_midi_priority (st : ZState) (i : Nat)
    (hi : i < MAX_NUM_ZYNCODERS) (hen : (st.zyncoders i).enabled = true) :
    ((st.zyncoders i).midi_ctrl > 0 →
      jack_ringbuffer_write_space st.jack_ring_output_buffer ≥ 3 →
      (send_zyncoder st i).1.jack_ring_output_buffer.data =
        st.jack_ring_output_buffer.data ++
          [(0xB0 + (st.zyncoders i).midi_chan % 256) % 256,
           (st.zyncoders i).midi_ctrl % 256,
           (st.zyncoders i).value % 256] ∧
      (send_zyncoder st i).2 = [ZEvent.dispatch i]) ∧
    ((st.zyncoders i).midi_ctrl = 0 → st.osc_inited = true →
      (st.zyncoders i).osc_path ≠ "" →
      (send_zyncoder st i).1 = st ∧
      (send_zyncoder st i).2 = [ZEvent.dispatch i,
        if (st.zyncoders i).step ≥ 8 then
          (if (st.zyncoders i).value ≥ 64 then ZEvent.oscTrue (st.zyncoders i).osc_path
           else ZEvent.oscFalse (st.zyncoders i).osc_path)
        else ZEvent.oscInt (st.zyncoders i).osc_path (st.zyncoders i).value]) := by
  constructor
  · intro hctrl hspace
    unfold send_zyncoder
    try dsimp only
    rw [if_neg (by omega : ¬ i ≥ MAX_NUM_ZYNCODERS), if_neg (by simp [hen]), if_pos hctrl]
    unfold zynmidi_set_control
    try dsimp only
    rw [jack_write_midi_event_ok _ _ _ _ hspace]
    exact ⟨rfl, rfl⟩
  · intro hctrl hosc hpath
    unfold send_zyncoder
    try dsimp only
    rw [if_neg (by omega : ¬ i ≥ MAX_NUM_ZYNCODERS), if_neg (by simp [hen])]
    rw [if_neg (by omega : ¬ (st.zyncoders i).midi_ctrl > 0)]
    rw [if_pos ⟨hosc, hpath⟩]
    split_ifs <;> exact ⟨rfl, rfl⟩

/-- C4 counterexample: the stepped encoder `stC4` (`midi_chan=1, midi_ctrl=10,
max_value=200`) set to value 150 emits the Control-Change data byte 150 — that
is `value & 0xFF`, not `value & 0x7F = 22` as the claim states. -/
theorem c4_counterexample :
    (stC4.zyncoders 0).midi_ctrl = 10 ∧
    (set_value_zyncoder stC4 0 150).1.jack_ring_output_buffer.data = [0xB1, 10, 150] ∧
    (150 : Nat) ≠ 150 &&& 0x7F :=
  ⟨by decide, by decide, by decide⟩

/-- C4 witness: the amended theorem applied to the MIDI encoder `stC4` (one CC
triple enqueued, no OSC event) and to the OSC encoder `stC4o`
(`midi_ctrl=0, step=9, value=70`: one boolean-true OSC event, state unchanged). -/
theorem c4_witness :
    ((send_zyncoder stC4 0).1.jack_ring_output_buffer.data =
        stC4.jack_ring_output_buffer.data ++ [0xB1, 10, 0] ∧
      (send_zyncoder stC4 0).2 = [ZEvent.dispatch 0]) ∧
    ((send_zyncoder stC4o 1).1 = stC4o ∧
      (send_zyncoder stC4o 1).2 = [ZEvent.dispatch 1, ZEvent.oscTrue "/zyn"]) := by
  have h1 := (c4_dispatcher_midi_priority stC4 0 (by decide) (by decide)).1
    (by decide) (by decide)
  have h2 := (c4_dispatcher_midi_priority stC4o 1 (by decide) (by decide)).2
    (by decide) (by decide) (by decide)
  refine ⟨⟨?_, h1.2⟩, ⟨h2.1, ?_⟩⟩
  · rw [h1.1]
    decide
  · rw [h2.2]
    decide

/-- C7: enqueuing a 3-byte MIDI message on the outbound byte ring fails with an
overflow error (return `-1`) and leaves the ring contents unchanged when free
space is below 3 bytes; otherwise it appends all three bytes atomically
(all-or-nothing) and reports success. -/
theorem c7_enqueue_all_or_nothing (r : JackRing) (b0 b1 b2 : Nat) :
    (jack_ringbuffer_write_space r < 3 →
      jack_write_midi_event r b0 b1 b2 = (r, -1)) ∧
    (jack_ringbuffer_write_space r ≥ 3 →
      jack_write_midi_event r b0 b1 b2 = (⟨r.data ++ [b0, b1, b2]⟩, 0)) :=
  ⟨jack_write_midi_event_full r b0 b1 b2, jack_write_midi_event_ok r b0 b1 b2⟩

set_option maxRecDepth 100000 in
/-- C7 witness: the theorem at a completely full ring (1023 queued bytes — the
ring contents are unchanged and the overflow is reported) and at an empty one. -/
theorem c7_witness :
    jack_write_midi_event ⟨List.replicate 1023 0⟩ 1 2 3 = (⟨List.replicate 1023 0⟩, -1) ∧
    jack_write_midi_event ⟨[]⟩ 1 2 3 = (⟨[1, 2, 3]⟩, 0) :=
  ⟨(c7_enqueue_all_or_nothing ⟨List.replicate 1023 0⟩ 1 2 3).1 (by decide),
   (c7_enqueue_all_or_nothing ⟨[]⟩ 1 2 3).2 (by decide)⟩

lemma jack_process_pc (st : ZState) (b0 b1 b2 : Nat) (hb0 : (b0 % 256) >>> 4 = 0xC) :
    (jack_process_input_event st b0 b1 b2).zynmidi_buffer =
      (write_zynmidi st
        ((b0 % 256) ||| ((b1 % 256) <<< 8) ||| ((b2 % 256) <<< 16))).1.zynmidi_buffer ∧
    (jack_process_input_event st b0 b1 b2).zynmidi_buffer_read =
      (write_zynmidi st
        ((b0 % 256) ||| ((b1 % 256) <<< 8) ||| ((b2 % 256) <<< 16))).1.zynmidi_buffer_read ∧
    (jack_process_input_event st b0 b1 b2).zynmidi_buffer_write =
      (write_zynmidi st
        ((b0 % 256) ||| ((b1 % 256) <<< 8) |||
          ((b2 % 256) <<< 16))).1.zynmidi_buffer_write := by
  unfold jack_process_input_event
  try dsimp only
  rw [if_pos (Or.inr hb0)]
  rw [if_neg (by omega : ¬ (b0 % 256) >>> 4 = 0xB)]
  rw [if_pos hb0]
  split_ifs <;> exact ⟨rfl, rfl, rfl⟩

/-- C8: feeding the raw Program-Change triple `[0xC3, 0x05, 0x00]` through the
Transport Bridge's input scan packs `status | data1<<8 | data2<<16` (zero top
byte) into the Returned-Event Ring, and a pop (`read_zynmidi`) on the previously
empty ring returns exactly `0x0005C3` and advances the read index. -/
theorem c8_program_change_roundtrip (st : ZState)
    (hempty : st.zynmidi_buffer_read = st.zynmidi_buffer_write)
    (hw : st.zynmidi_buffer_write < ZYNMIDI_BUFFER_SIZE) :
    (read_zynmidi (jack_process_input_event st 0xC3 0x05 0x00)).1 = 0x0005C3 ∧
    (read_zynmidi (jack_process_input_event st 0xC3 0x05 0x00)).2.zynmidi_buffer_read =
      (if st.zynmidi_buffer_write + 1 ≥ ZYNMIDI_BUFFER_SIZE then 0
       else st.zynmidi_buffer_write + 1) := by
  have hb0 : ((0xC3 : Nat) % 256) >>> 4 = 0xC := by decide
  obtain ⟨hbuf, hrd, hwr⟩ := jack_process_pc st 0xC3 0x05 0x00 hb0
  have hev : ((0xC3 : Nat) % 256) ||| (((0x05 : Nat) % 256) <<< 8) |||
      (((0x00 : Nat) % 256) <<< 16) = 0x0005C3 := by decide
  rw [hev] at hbuf hrd hwr
  have hne : ¬ (if st.zynmidi_buffer_write + 1 ≥ ZYNMIDI_BUFFER_SIZE then 0
      else st.zynmidi_buffer_write + 1) = st.zynmidi_buffer_read := by
    unfold ZYNMIDI_BUFFER_SIZE at hw ⊢
    split_ifs <;> omega
  have hwz : (write_zynmidi st 0x0005C3).1 =
      { st with
          zynmidi_buffer := fun k => if k = st.zynmidi_buffer_write then 0x0005C3
                                     else st.zynmidi_buffer k
          zynmidi_buffer_write := if st.zynmidi_buffer_write + 1 ≥ ZYNMIDI_BUFFER_SIZE then 0
                                  else st.zynmidi_buffer_write + 1 } := by
    unfold write_zynmidi
    try dsimp only
    rw [if_neg hne]
  rw [hwz] at hbuf hrd hwr
  unfold read_zynmidi
  rw [hbuf, hrd, hwr]
  try dsimp only
  have hne2 : ¬ st.zynmidi_buffer_read =
      (if st.zynmidi_buffer_write + 1 ≥ ZYNMIDI_BUFFER_SIZE then 0
       else st.zynmidi_buffer_write + 1) := by
    unfold ZYNMIDI_BUFFER_SIZE at hw ⊢
    rw [hempty]
    split_ifs <;> omega
  rw [if_neg hne2]
  constructor
  · rw [hempty]
    rw [if_pos rfl]
  · rw [hempty]

/-- C8 witness: the round trip from the freshly initialized state (empty ring):
the pop returns `0x0005C3` and the read index advances from 0 to 1. -/
theorem c8_witness :
    (read_zynmidi (jack_process_input_event init_state 0xC3 0x05 0x00)).1 = 0x0005C3 ∧
    (read_zynmidi
      (jack_process_input_event init_state 0xC3 0x05 0x00)).2.zynmidi_buffer_read = 1 := by
  have h := c8_program_change_roundtrip init_state (by decide) (by decide)
  refine ⟨h.1, ?_⟩
  rw [h.2]
  decide

/-- C9: within a single pass of `update_expanded_zynswitches`, a spurious
press-edge on switch 0 (delta 500µs < 1000µs) executes `return`, aborting the
whole pass: switch 1, enabled on an expander pin with a pending level change, is
left unsampled and unchanged — contradicting the claim that the error is local
to the one switch.  (Note switch 0's `status` was still committed to 1.) -/
theorem c9_spurious_press_aborts_pass :
    (stQ2.zynswitches 1).enabled = true ∧
    100 ≤ (stQ2.zynswitches 1).pin ∧
    (stQ2.zynswitches 1).status = 0 ∧
    3500 - (stQ2.zynswitches 0).tsus < 1000 ∧
    (stQ3.zynswitches 0).status = 1 ∧
    stQ3.zynswitches 1 = stQ2.zynswitches 1 ∧
    (stQ3.zynswitches 1).status = 0 :=
  ⟨by decide, by decide, by decide, by decide, by decide, by decide, by decide⟩

lemma update_zyncoder_zyncoders (st : ZState) (i m l t : Nat)
    (hi : i < MAX_NUM_ZYNCODERS) (hen : (st.zyncoders i).enabled = true) :
    (update_zyncoder st i m l t).1.zyncoders i = (encoder_rotate (st.zyncoders i) m l t).1 := by
  unfold update_zyncoder
  try dsimp only
  rw [if_neg (by omega : ¬ i ≥ MAX_NUM_ZYNCODERS), if_neg (by simp [hen])]
  split_ifs
  · rw [send_zyncoder_zyncoders, setEnc_get]
  · exact setEnc_get st i _

lemma encoder_rotate_up_step (zc : zyncoder_st) (m l t : Nat)
    (hstep : zc.step = 0)
    (hup : upSum ((zc.last_encoded <<< 2) ||| ((m <<< 1) ||| l)) = true)
    (ht : zc.tsus + 30000 < t) (htU : t < 2 ^ 29)
    (hd0 : 30000 < zc.dtus0) (hd0U : zc.dtus0 < 2 ^ 29)
    (hd1 : 30000 < zc.dtus1) (hd1U : zc.dtus1 < 2 ^ 29)
    (hd2 : 30000 < zc.dtus2) (hd2U : zc.dtus2 < 2 ^ 29)
    (hd3 : 30000 < zc.dtus3) (hd3U : zc.dtus3 < 2 ^ 29)
    (hsv : zc.subvalue < zc.max_value) (hM : zc.max_value < U32) :
    (encoder_rotate zc m l t).1 =
      { zc with
          last_encoded := (m <<< 1) ||| l
          dtus0 := zc.dtus1
          dtus1 := zc.dtus2
          dtus2 := zc.dtus3
          dtus3 := t - zc.tsus
          subvalue := zc.subvalue + 1
          value := (zc.subvalue + 1) / ZYNCODER_TICKS_PER_RETENT
          tsus := t } := by
  have h29 : (2 : Nat) ^ 29 = 536870912 := by norm_num
  have hU32 : U32 = 4294967296 := rfl
  have hU64 : U64 = 18446744073709551616 := rfl
  unfold encoder_rotate
  try dsimp only
  rw [if_pos hstep]
  have hdt : usub64to32 t zc.tsus = t - zc.tsus :=
    usub64to32_eq (by omega) (by omega) (by omega)
  rw [hdt]
  rw [if_neg (by omega : ¬ t - zc.tsus < 1000)]
  have hsum : u32 (t - zc.tsus + zc.dtus0 + zc.dtus1 + zc.dtus2 + zc.dtus3) =
      t - zc.tsus + zc.dtus0 + zc.dtus1 + zc.dtus2 + zc.dtus3 :=
    u32_eq_of_lt (by omega)
  rw [hsum]
  unfold ZYNCODER_TICKS_PER_RETENT
  rw [if_neg (by omega :
      ¬ (t - zc.tsus + zc.dtus0 + zc.dtus1 + zc.dtus2 + zc.dtus3) / (4 + 1) < 10000)]
  rw [if_neg (by omega :
      ¬ (t - zc.tsus + zc.dtus0 + zc.dtus1 + zc.dtus2 + zc.dtus3) / (4 + 1) < 30000)]
  rw [hup, if_pos rfl]
  rw [u32sub_eq_of_le (le_of_lt hsv) hM]
  rw [if_pos (by omega : zc.max_value - zc.subvalue ≥ 1)]
  rw [u32_eq_of_lt (by omega : zc.subvalue + 1 < U32)]
  by_cases hv : zc.value ≠ (zc.subvalue + 1) / 4
  · rw [if_pos hv]
  · rw [if_neg hv]
    push_neg at hv
    rw [hv]

lemma run_updates_up (i : Nat) (ticks : List (Nat × Nat × Nat)) :
    ∀ st : ZState, i < MAX_NUM_ZYNCODERS →
    (st.zyncoders i).enabled = true → (st.zyncoders i).step = 0 →
    SlowHistory (st.zyncoders i) →
    (st.zyncoders i).max_value < U32 →
    (st.zyncoders i).subvalue + ticks.length ≤ (st.zyncoders i).max_value →
    (st.zyncoders i).value = (st.zyncoders i).subvalue / ZYNCODER_TICKS_PER_RETENT →
    UpTrace i st ticks →
    ((run_updates i ticks st).zyncoders i).subvalue =
      (st.zyncoders i).subvalue + ticks.length ∧
    ((run_updates i ticks st).zyncoders i).value =
      ((st.zyncoders i).subvalue + ticks.length) / ZYNCODER_TICKS_PER_RETENT := by
  induction ticks with
  | nil =>
      intro st _ _ _ _ _ _ hval _
      exact ⟨rfl, by simpa using hval⟩
  | cons x rest ih =>
      obtain ⟨m, l, t⟩ := x
      intro st hi hen hstep hsh hM hle hval htr
      obtain ⟨hup, ht, htU, htr'⟩ := htr
      obtain ⟨hd0, hd0U, hd1, hd1U, hd2, hd2U, hd3, hd3U, hts⟩ := hsh
      have hlen : (rest.length : Nat) + 1 = ((m, l, t) :: rest).length := by simp
      have hsv : (st.zyncoders i).subvalue < (st.zyncoders i).max_value := by
        simp only [List.length_cons] at hle
        omega
      have hslot : (update_zyncoder st i m l t).1.zyncoders i =
          { st.zyncoders i with
              last_encoded := (m <<< 1) ||| l
              dtus0 := (st.zyncoders i).dtus1
              dtus1 := (st.zyncoders i).dtus2
              dtus2 := (st.zyncoders i).dtus3
              dtus3 := t - (st.zyncoders i).tsus
              subvalue := (st.zyncoders i).subvalue + 1
              value := ((st.zyncoders i).subvalue + 1) / ZYNCODER_TICKS_PER_RETENT
              tsus := t } := by
        rw [update_zyncoder_zyncoders st i m l t hi hen]
        exact encoder_rotate_up_step (st.zyncoders i) m l t hstep hup ht htU
          hd0 hd0U hd1 hd1U hd2 hd2U hd3 hd3U hsv hM
      have hrun : run_updates i ((m, l, t) :: rest) st =
          run_updates i rest (update_zyncoder st i m l t).1 := rfl
      rw [hrun]
      have hstep' := ih (update_zyncoder st i m l t).1 hi
        (by rw [hslot]; exact hen) (by rw [hslot]; exact hstep)
        (by rw [hslot]
            unfold SlowHistory
            dsimp only
            refine ⟨hd1, hd1U, hd2, hd2U, hd3, hd3U, by omega, by omega, htU⟩)
        (by rw [hslot]; exact hM)
        (by rw [hslot]
            dsimp only
            simp only [List.length_cons] at hle
            omega)
        (by rw [hslot])
        htr'
      rw [hslot] at hstep'
      dsimp only at hstep'
      simp only [List.length_cons]
      refine ⟨by rw [hstep'.1]; omega, by rw [hstep'.2]; congr 1; omega⟩

/-- C5 (amended): for a continuous-mode encoder starting at `subvalue = 0` whose
four-slot interval history already holds four slow ticks (each interval above
30ms), `N` consecutive valid "up" quadrature transitions spaced more than 30ms
apart each add exactly 1 tick (the computed increment is 1), so `subvalue = N`
afterwards, and `value` increases by at most `ceil(N / TICKS_PER_DETENT)`.
Without the slow-history premise the claim fails: the zero-initialized history
dilutes the 5-sample average below the 30ms threshold and the increment is
`TICKS_PER_DETENT` or `TICKS_PER_DETENT/2`. -/
theorem c5_slow_rotation_unit_increment (st : ZState) (i : Nat)
    (ticks : List (Nat × Nat × Nat))
    (hi : i < MAX_NUM_ZYNCODERS)
    (hen : (st.zyncoders i).enabled = true)
    (hstep : (st.zyncoders i).step = 0)
    (hsh : SlowHistory (st.zyncoders i))
    (hM : (st.zyncoders i).max_value < U32)
    (hs0 : (st.zyncoders i).subvalue = 0)
    (hv0 : (st.zyncoders i).value = 0)
    (hlen : ticks.length ≤ (st.zyncoders i).max_value)
    (htr : UpTrace i st ticks) :
    ((run_updates i ticks st).zyncoders i).subvalue = ticks.length ∧
    ((run_updates i ticks st).zyncoders i).value = ticks.length / ZYNCODER_TICKS_PER_RETENT ∧
    ((run_updates i ticks st).zyncoders i).value - (st.zyncoders i).value ≤
      (ticks.length + (ZYNCODER_TICKS_PER_RETENT - 1)) / ZYNCODER_TICKS_PER_RETENT := by
  have h := run_updates_up i ticks st hi hen hstep hsh hM
    (by omega) (by rw [hs0, hv0]; decide) htr
  rw [hs0] at h
  simp only [Nat.zero_add] at h
  refine ⟨h.1, h.2, ?_⟩
  rw [h.2, hv0]
  unfold ZYNCODER_TICKS_PER_RETENT
  omega

/-- C5 counterexample: on the freshly configured continuous encoder `stC3`
(zero-initialized interval history), a single valid "up" transition arriving
31000µs after the stored timestamp — spacing well above 30ms — adds 4 to
`subvalue` (the diluted 5-sample average is 6200µs < 10000µs, so the computed
increment is `TICKS_PER_DETENT`), not 1 as the claim states. -/
theorem c5_counterexample :
    (stC3.zyncoders 0).step = 0 ∧ (stC3.zyncoders 0).subvalue = 0 ∧
    upSum (((stC3.zyncoders 0).last_encoded <<< 2) ||| ((1 <<< 1) ||| 0)) = true ∧
    31000 - (stC3.zyncoders 0).tsus > 30000 ∧
    ((update_zyncoder stC3 0 1 0 31000).1.zyncoders 0).subvalue = 4 ∧
    ((update_zyncoder stC3 0 1 0 31000).1.zyncoders 0).subvalue ≠
      (stC3.zyncoders 0).subvalue + 1 :=
  ⟨by decide, by decide, by decide, by decide, by decide, by decide⟩

/-- C5 witness: the amended theorem applied to the encoder `stC5w` (slow history
in place) and a single up transition 30001µs later: `subvalue` becomes exactly 1. -/
theorem c5_witness :
    ((run_updates 0 [(1, 0, 30001)] stC5w).zyncoders 0).subvalue = 1 ∧
    ((run_updates 0 [(1, 0, 30001)] stC5w).zyncoders 0).value = 0 := by
  have h := c5_slow_rotation_unit_increment stC5w 0 [(1, 0, 30001)]
    (by decide) (by decide) (by decide)
    (by unfold SlowHistory; refine ⟨?_, ?_, ?_, ?_, ?_, ?_, ?_, ?_, ?_⟩ <;> decide)
    (by decide) (by decide) (by decide) (by decide)
    (by refine ⟨by decide, by decide, by decide, trivial⟩)
  exact ⟨h.1, h.2.1⟩

end Zyncoder
